import Mathlib

/-!
Verification of the EduVulcan calendar normalization core
(`custom_components/eduvulcan/calendar.py`).

The Python module is shallowly embedded: Python runtime values that flow
through the calendar code are modelled by the inductive type `PyVal`
(mappings and attribute objects are association lists; civil dates are
proleptic-Gregorian day ordinals with 0001-01-01 = 1; times are seconds
since midnight; aware datetimes carry an explicit UTC offset in seconds).
Operations that can raise in Python (`+` on a non-date, attribute access on
an object lacking the attribute, membership test of an unhashable value in
a set) are embedded in `Except PErr`; everything else is a total function.
Timezones are modelled as fixed UTC offsets in seconds, which is faithful
to every comparison the module performs (all comparisons happen on single
absolute instants).  The repr of composite or temporal values produced by
`str(...)` is abstracted by placeholder strings; no theorem depends on
those branches.  The stdlib ISO-8601 parsers are modelled on their
canonical documented formats (`YYYY-MM-DD`, `HH:MM[:SS]`, and the
full-datetime fallback).
-/

namespace EduVulcan

/-- Python exception kinds that the embedded code paths can raise. -/
inductive PErr where
  | typeError
  | attributeError

/-- Python values flowing through the calendar module. -/
inductive PyVal where
  | none
  | bool (b : Bool)
  | int (n : Int)
  | str (s : String)
  | pdate (ord : Nat)
  | ptime (sec : Nat)
  | pdatetime (ord : Nat) (sec : Nat) (off : Option Int)
  | dict (entries : List (String × PyVal))
  | obj (attrs : List (String × PyVal))

/-- Python truthiness (`bool(v)`) for the embedded value universe. -/
def truthy : PyVal → Bool
  | .none => false
  | .bool b => b
  | .int n => n != 0
  | .str s => s != ""
  | .pdate _ => true
  | .ptime _ => true
  | .pdatetime _ _ _ => true
  | .dict es => !es.isEmpty
  | .obj _ => true

/-- First binding of a key in an association list (dict lookup / getattr). -/
def lookupKey (k : String) : List (String × PyVal) → Option PyVal
  | [] => Option.none
  | (k₁, v) :: rest => if k₁ = k then some v else lookupKey k rest

/-- Embeds `_get_value(item, *keys)`: try each candidate key in order; for a
mapping, key presence short-circuits (even on a falsy value); for an object,
attribute presence short-circuits; otherwise `None`. -/
def getValue (item : PyVal) (keys : List String) : PyVal :=
  match keys with
  | [] => PyVal.none
  | k :: rest =>
    match item with
    | .dict es =>
      match lookupKey k es with
      | some v => v
      | Option.none => getValue item rest
    | .obj as =>
      match lookupKey k as with
      | some v => v
      | Option.none => getValue item rest
    | _ => getValue item rest

/-- One step of `_get_nested_value`: `current.get(key)` for a mapping,
`getattr(current, key, None)` otherwise. -/
def getNested1 (cur : PyVal) (k : String) : PyVal :=
  match cur with
  | .dict es => (lookupKey k es).getD PyVal.none
  | .obj as => (lookupKey k as).getD PyVal.none
  | _ => PyVal.none

/-- Embeds `_get_nested_value(item, *keys)`. -/
def getNested (item : PyVal) (keys : List String) : PyVal :=
  keys.foldl getNested1 item

/-- Python `a or b` (returns the first operand when it is truthy). -/
def pyOr (a b : PyVal) : PyVal :=
  if truthy a then a else b

/-- Python `str(v)`.  Strings, ints, bools and `None` are rendered exactly;
the repr of temporal and composite values is abstracted (no theorem below
depends on those branches). -/
def pyStr : PyVal → String
  | .str s => s
  | .int n => toString n
  | .bool b => if b then "True" else "False"
  | .none => "None"
  | .pdate _ => "date"
  | .ptime _ => "time"
  | .pdatetime _ _ _ => "datetime"
  | .dict _ => "dict"
  | .obj _ => "object"

/-! ### Civil-date arithmetic (proleptic Gregorian, ordinal day numbers) -/

def isLeap (y : Nat) : Bool :=
  (y % 4 == 0 && y % 100 != 0) || y % 400 == 0

def daysInMonth (y m : Nat) : Nat :=
  if m = 2 then (if isLeap y then 29 else 28)
  else if m = 4 ∨ m = 6 ∨ m = 9 ∨ m = 11 then 30
  else 31

def daysBeforeMonth (y m : Nat) : Nat :=
  (List.range (m - 1)).foldl (fun a i => a + daysInMonth y (i + 1)) 0

/-- Day ordinal of year `y`, month `m`, day `d` (0001-01-01 has ordinal 1,
and ordinal 1 falls on a Monday). -/
def toOrdinal (y m d : Nat) : Nat :=
  365 * (y - 1) + (y - 1) / 4 + (y - 1) / 400 - (y - 1) / 100 + daysBeforeMonth y m + d

/-- ISO weekday of an ordinal day (1 = Monday .. 7 = Sunday). -/
def isoweekday (ord : Nat) : Nat :=
  (ord - 1) % 7 + 1

/-! ### String utilities (ASCII fragment of the Python str methods) -/

def isSpaceChar (c : Char) : Bool :=
  c = ' ' || c = '\t' || c = '\n' || c = '\r'

/-- `str.strip()` on the character list. -/
def stripChars (cs : List Char) : List Char :=
  ((cs.dropWhile isSpaceChar).reverse.dropWhile isSpaceChar).reverse

def stripString (s : String) : String :=
  String.mk (stripChars s.data)

/-- `str.isdigit()` (ASCII decimal digits; true only on a nonempty string). -/
def isDigitString (s : String) : Bool :=
  s.data ≠ [] && s.data.all Char.isDigit

def digitVal (c : Char) : Nat := c.toNat - 48

def digitsToNat (cs : List Char) : Nat :=
  cs.foldl (fun a c => 10 * a + digitVal c) 0

/-! ### ISO-8601 parsing (canonical formats of the stdlib parsers) -/

/-- `date.fromisoformat` on its canonical `YYYY-MM-DD` input. -/
def parseIsoDate (s : String) : Option Nat :=
  match s.data with
  | [y₁, y₂, y₃, y₄, '-', m₁, m₂, '-', d₁, d₂] =>
    if y₁.isDigit && y₂.isDigit && y₃.isDigit && y₄.isDigit
        && m₁.isDigit && m₂.isDigit && d₁.isDigit && d₂.isDigit then
      let y := 1000 * digitVal y₁ + 100 * digitVal y₂ + 10 * digitVal y₃ + digitVal y₄
      let m := 10 * digitVal m₁ + digitVal m₂
      let d := 10 * digitVal d₁ + digitVal d₂
      if 1 ≤ y && 1 ≤ m && m ≤ 12 && 1 ≤ d && d ≤ daysInMonth y m then
        some (toOrdinal y m d)
      else Option.none
    else Option.none
  | _ => Option.none

/-- `time.fromisoformat` on its canonical `HH:MM[:SS]` inputs, as seconds
since midnight. -/
def parseIsoTime (s : String) : Option Nat :=
  match s.data with
  | [h₁, h₂, ':', m₁, m₂] =>
    if h₁.isDigit && h₂.isDigit && m₁.isDigit && m₂.isDigit then
      let h := 10 * digitVal h₁ + digitVal h₂
      let m := 10 * digitVal m₁ + digitVal m₂
      if h ≤ 23 && m ≤ 59 then some (3600 * h + 60 * m) else Option.none
    else Option.none
  | [h₁, h₂, ':', m₁, m₂, ':', s₁, s₂] =>
    if h₁.isDigit && h₂.isDigit && m₁.isDigit && m₂.isDigit && s₁.isDigit && s₂.isDigit then
      let h := 10 * digitVal h₁ + digitVal h₂
      let m := 10 * digitVal m₁ + digitVal m₂
      let sec := 10 * digitVal s₁ + digitVal s₂
      if h ≤ 23 && m ≤ 59 && sec ≤ 59 then some (3600 * h + 60 * m + sec) else Option.none
    else Option.none
  | _ => Option.none

/-- A trailing UTC-offset suffix `±HH:MM` (or nothing). -/
def validOffsetSuffix : List Char → Bool
  | [] => true
  | [c, h₁, h₂, ':', m₁, m₂] =>
    (c = '+' || c = '-') && h₁.isDigit && h₂.isDigit && m₁.isDigit && m₂.isDigit
      && (10 * digitVal m₁ + digitVal m₂) ≤ 59
  | _ => false

/-- Time-of-day part of a full ISO datetime, with optional offset suffix. -/
def validTimeWithOffset (cs : List Char) : Bool :=
  match cs with
  | h₁ :: h₂ :: ':' :: m₁ :: m₂ :: rest =>
    h₁.isDigit && h₂.isDigit && m₁.isDigit && m₂.isDigit
      && (10 * digitVal h₁ + digitVal h₂) ≤ 23 && (10 * digitVal m₁ + digitVal m₂) ≤ 59
      && (match rest with
          | ':' :: s₁ :: s₂ :: rest₂ =>
            s₁.isDigit && s₂.isDigit && (10 * digitVal s₁ + digitVal s₂) ≤ 59
              && validOffsetSuffix rest₂
          | _ => validOffsetSuffix rest)
  | _ => false

/-- `datetime.fromisoformat(...).date()` on canonical full-datetime inputs:
a valid date, a `T` or space separator, a valid time, an optional offset. -/
def parseIsoDateTimeDate (s : String) : Option Nat :=
  let cs := s.data
  match parseIsoDate (String.mk (cs.take 10)) with
  | Option.none => Option.none
  | some d =>
    match cs.drop 10 with
    | [] => some d
    | sep :: rest =>
      if (sep = 'T' || sep = ' ') && validTimeWithOffset rest then some d else Option.none

/-- Python `value.replace("Z", "+00:00")`. -/
def replaceZ (s : String) : String :=
  String.mk (s.data.foldr (fun c acc => if c = 'Z' then '+' :: '0' :: '0' :: ':' :: '0' :: '0' :: acc else c :: acc) [])

/-- Embeds `_coerce_date_value(value)` for string input: strict ISO date
parse, then a fallback full-datetime parse with `Z` treated as `+00:00`. -/
def coerceDateValue (s : String) : Option Nat :=
  match parseIsoDate s with
  | some d => some d
  | Option.none => parseIsoDateTimeDate (replaceZ s)

/-- Embeds `_coerce_time_value(value)`. -/
def coerceTimeValue (v : PyVal) : Option Nat :=
  match v with
  | .ptime t => some t
  | .pdatetime _ t _ => some t
  | .str s => parseIsoTime s
  | _ => Option.none

/-! ### Weekday normalization and lesson-date resolution -/

/-- The numeric branch of `_normalize_weekday_value`: keep 1..7, shift 0..6
up by one (only 0 reaches that branch), reject the rest. -/
def weekdayFromInt (n : Int) : Option Int :=
  if 1 ≤ n ∧ n ≤ 7 then some n
  else if 0 ≤ n ∧ n ≤ 6 then some (n + 1)
  else Option.none

/-- Embeds `_normalize_weekday_value(value)`.  A non-numeric, non-string,
non-`None` value raises `TypeError` at the `1 <= value` comparison; a Python
bool is an int (`True == 1`, `False == 0`). -/
def normalizeWeekdayValue (v : PyVal) : Except PErr (Option Int) :=
  match v with
  | .none => .ok Option.none
  | .str s =>
    if isDigitString (stripString s) then
      .ok (weekdayFromInt (digitsToNat (stripChars s.data)))
    else .ok Option.none
  | .int n => .ok (weekdayFromInt n)
  | .bool b => .ok (weekdayFromInt (if b then 1 else 0))
  | _ => .error .typeError

def dateFieldKeys : List String := ["date_", "date", "dateAt", "DateAt"]
def weekdayKeys : List String := ["day", "weekday", "day_of_week", "dayOfWeek"]
def weekStartKeys : List String := ["week_start", "weekStart", "week_start_date", "weekStartDate"]

/-- The weekday + week-anchor tail of `_resolve_lesson_date`. -/
def resolveViaWeek (item : PyVal) : Except PErr (Option Nat) :=
  let weekdayValue := getValue item weekdayKeys
  let weekStart := getValue item weekStartKeys
  let weekStart := match weekStart with
    | .pdatetime d _ _ => PyVal.pdate d
    | x => x
  match normalizeWeekdayValue weekdayValue with
  | .error e => .error e
  | .ok normalized =>
    match weekStart, normalized with
    | .pdate w, some d =>
      if d = 0 then .ok Option.none else .ok (some (w + (d - 1).toNat))
    | _, _ => .ok Option.none

/-- Embeds `_resolve_lesson_date(item)`: an explicit date field wins
outright; otherwise the weekday + week-anchor pair is consulted. -/
def resolveLessonDate (item : PyVal) : Except PErr (Option Nat) :=
  match getValue item dateFieldKeys with
  | .pdatetime d _ _ => .ok (some d)
  | .pdate d => .ok (some d)
  | .str s =>
    match coerceDateValue s with
    | some d => .ok (some d)
    | Option.none => resolveViaWeek item
  | _ => resolveViaWeek item

/-! ### Lesson state classification -/

def substitutionKeys : List String := ["substitution", "Substitution"]

/-- Python `v in {0, 1, 4}`: raises on unhashable values (mappings); a bool
compares equal to 0 or 1, both of which are in the set. -/
def inSet014 (v : PyVal) : Except PErr Bool :=
  match v with
  | .dict _ => .error .typeError
  | .int n => .ok (n == 0 || n == 1 || n == 4)
  | .bool _ => .ok true
  | _ => .ok false

/-- ASCII `str.upper()`. -/
def pyUpper (s : String) : String :=
  String.mk (s.data.map Char.toUpper)

/-- Embeds `_is_cancelled_lesson(item)`.  Note the `or` between the two
nested change-type lookups: a falsy lowercase result (such as the integer
`0`) is discarded in favour of the PascalCase lookup. -/
def isCancelledLesson (item : PyVal) : Except PErr Bool :=
  let substitution := getValue item substitutionKeys
  let changeType := pyOr (getNested substitution ["change", "type"])
      (getNested substitution ["Change", "Type"])
  match inSet014 changeType with
  | .error e => .error e
  | .ok b =>
    if b then .ok true
    else if getValue substitution ["class_absence", "classAbsence", "ClassAbsence"]
        matches .bool true then .ok true
    else if truthy (getValue item
        ["cancelled", "canceled", "is_cancelled", "is_canceled", "isCancelled", "isCanceled"]) then
      .ok true
    else
      match getValue item ["status"] with
      | .str s => .ok (pyUpper s == "CANCELLED")
      | _ => .ok false

/-- Embeds `_is_substitution_lesson(item)`. -/
def isSubstitutionLesson (item : PyVal) : Bool :=
  if truthy (getValue item substitutionKeys) then true
  else if truthy (getValue item
      ["substitution", "is_substitution", "isSubstitution", "replacement",
       "is_replacement", "isReplacement"]) then true
  else
    match getValue item ["status"] with
    | .str s => pyUpper s == "SUBSTITUTION" || pyUpper s == "REPLACEMENT"
    | _ => false

/-! ### Event model -/

/-- Start/end of a `CalendarEvent`: either a civil date (all-day) or an
aware datetime (`off` is the UTC offset; `Option.none` marks the naive case,
which `dt_util.as_utc` interprets in the configured timezone). -/
inductive ETime where
  | d (ord : Nat)
  | dt (ord : Nat) (sec : Nat) (off : Option Int)

/-- The `CalendarEvent` fields the module populates.  The summary is kept as
a raw Python value because `_build_lesson_event` can store a non-string
there. -/
structure Event where
  summary : PyVal
  start : ETime
  end_ : ETime
  description : Option String
  location : Option String

/-- Embeds `_teacher_name(teacher)`.  For a truthy non-mapping value the
code reads `.display_name`, `.name` and `.surname`, raising
`AttributeError` when the attribute is missing. -/
def teacherName (teacher : PyVal) : Except PErr (Option PyVal) :=
  if !truthy teacher then .ok Option.none
  else
    match teacher with
    | .dict es =>
      let displayName := pyOr (pyOr ((lookupKey "display_name" es).getD .none)
          ((lookupKey "displayName" es).getD .none)) ((lookupKey "DisplayName" es).getD .none)
      if truthy displayName then .ok (some displayName)
      else
        let name := pyOr ((lookupKey "name" es).getD .none)
            (pyOr ((lookupKey "Name" es).getD .none) (.str ""))
        let surname := pyOr ((lookupKey "surname" es).getD .none)
            (pyOr ((lookupKey "Surname" es).getD .none) (.str ""))
        let full := stripString (pyStr name ++ " " ++ pyStr surname)
        if full = "" then .ok Option.none else .ok (some (.str full))
    | .obj as =>
      match lookupKey "display_name" as with
      | Option.none => .error .attributeError
      | some displayName =>
        if truthy displayName then .ok (some displayName)
        else
          match lookupKey "name" as, lookupKey "surname" as with
          | some n, some s => .ok (some (.str (pyStr n ++ " " ++ pyStr s)))
          | _, _ => .error .attributeError
    | _ => .error .attributeError

/-- Embeds `_add_line(lines, label, value)`. -/
def addLine (lines : List String) (label : String) (value : PyVal) : List String :=
  if value matches .none then lines
  else if value matches .str "" then lines
  else lines ++ [label ++ ": " ++ pyStr value]

/-- Python `sep.join(vs)`: raises `TypeError` unless every element is a
string. -/
def joinStrings (sep : String) (vs : List PyVal) : Except PErr String :=
  match vs with
  | [] => .ok ""
  | [.str s] => .ok s
  | .str s :: rest =>
    match joinStrings sep rest with
    | .ok tail => .ok (s ++ sep ++ tail)
    | .error e => .error e
  | _ :: _ => .error .typeError

def teacherPrimaryKeys : List String := ["teacher_primary", "teacherPrimary", "TeacherPrimary"]
def teacherSecondaryKeys : List String := ["teacher_secondary", "teacherSecondary", "TeacherSecondary"]
def teacherSecondary2Keys : List String := ["teacher_secondary2", "teacherSecondary2", "TeacherSecondary2"]

/-- Embeds `_add_schedule_description` followed by the final join of
`_build_event_description` for the schedule kind. -/
def scheduleDescription (item : PyVal) : Except PErr (Option String) :=
  let substitution := getValue item substitutionKeys
  let teacherSource := if truthy substitution then substitution else item
  match teacherName (getValue teacherSource teacherPrimaryKeys) with
  | .error e => .error e
  | .ok t₁ =>
  match teacherName (getValue teacherSource teacherSecondaryKeys) with
  | .error e => .error e
  | .ok t₂ =>
  match teacherName (getValue teacherSource teacherSecondary2Keys) with
  | .error e => .error e
  | .ok t₃ =>
    let lines := addLine [] "Powód nieobecności"
        (pyOr (pyOr (pyOr (getNested substitution ["teacher_absence_effect_name"])
          (getNested substitution ["TeacherAbsenceEffectName"]))
          (getNested item ["teacher_absence_effect_name"]))
          (getNested item ["TeacherAbsenceEffectName"]))
    let lines := addLine lines "Powód"
        (pyOr (pyOr (pyOr (getNested substitution ["reason"]) (getNested substitution ["Reason"]))
          (getNested item ["reason"])) (getNested item ["Reason"]))
    let teacherNames := ([t₁, t₂, t₃].filterMap id).filter truthy
    if teacherNames.isEmpty then
      .ok (if lines.isEmpty then Option.none else some (String.intercalate "\n" lines))
    else
      let label := if teacherNames.length > 1 then "Nauczyciele" else "Nauczyciel"
      match joinStrings ", " teacherNames with
      | .error e => .error e
      | .ok joined =>
        let lines := addLine lines label (.str joined)
        .ok (if lines.isEmpty then Option.none else some (String.intercalate "\n" lines))

def timeSlotKeys : List String := ["time_slot", "timeSlot", "TimeSlot"]

/-- Embeds `_build_lesson_event(item, tz)`. -/
def buildLessonEvent (item : PyVal) (tz : Int) : Except PErr (Option Event) :=
  match isCancelledLesson item with
  | .error e => .error e
  | .ok true => .ok Option.none
  | .ok false =>
    let substitution := getValue item substitutionKeys
    let subjectName := pyOr (getNested item ["subject", "name"]) (getNested item ["Subject", "Name"])
    let substitutionSubject := pyOr (getNested substitution ["subject", "name"])
        (getNested substitution ["Subject", "Name"])
    let subjectName := if truthy substitutionSubject then substitutionSubject else subjectName
    let roomCode := pyOr (pyOr (pyOr (getNested substitution ["room", "code"])
        (getNested substitution ["Room", "Code"]))
        (getNested item ["room", "code"])) (getNested item ["Room", "Code"])
    let timeSlot := getValue item timeSlotKeys
    let startTime := coerceTimeValue (getValue timeSlot ["start", "Start"])
    let endTime := coerceTimeValue (getValue timeSlot ["end", "End"])
    match truthy timeSlot, startTime, endTime with
    | true, some st, some et =>
      let summary := pyOr (pyOr subjectName (getValue item ["event", "Event"])) (.str "Lekcja")
      let summary := if isSubstitutionLesson item
        then PyVal.str (pyStr summary ++ " (Zastępstwo)") else summary
      match resolveLessonDate item with
      | .error e => .error e
      | .ok Option.none => .ok Option.none
      | .ok (some dateValue) =>
        match scheduleDescription item with
        | .error e => .error e
        | .ok description =>
          let location := if truthy roomCode then some ("Sala " ++ pyStr roomCode) else Option.none
          .ok (some { summary := summary,
                      start := .dt dateValue st (some tz),
                      end_ := .dt dateValue et (some tz),
                      description := description,
                      location := location })
    | _, _, _ => .ok Option.none

def dateFromKeys : List String := ["date_from", "dateFrom", "From"]
def dateToKeys : List String := ["date_to", "dateTo", "To"]

/-- Embeds `_is_vacation_item(item)`. -/
def isVacationItem (item : PyVal) : Bool :=
  truthy (getValue item ["name", "Name"]) && truthy (getValue item dateFromKeys)
    && truthy (getValue item dateToKeys)

/-- The per-bound coercion in `_build_vacation_event`: a datetime is cut to
its date, a string goes through `_coerce_date_value`, and everything else is
passed through unchanged (the `isinstance(_, date)` test then rejects it). -/
def vacCoerce (v : PyVal) : PyVal :=
  match v with
  | .pdatetime d _ _ => .pdate d
  | .str s =>
    match coerceDateValue s with
    | some d => .pdate d
    | Option.none => PyVal.none
  | x => x

/-- Embeds `_build_vacation_event(item)`. -/
def buildVacationEvent (item : PyVal) : Option Event :=
  let name := pyOr (getValue item ["name", "Name"]) (.str "Dzien wolny")
  match vacCoerce (getValue item dateFromKeys), vacCoerce (getValue item dateToKeys) with
  | .pdate d₁, .pdate d₂ =>
    some { summary := .str (pyStr name), start := .d d₁, end_ := .d (d₂ + 1),
           description := Option.none, location := Option.none }
  | _, _ => Option.none

/-- The content line appended by `_add_homework_description` and
`_add_exam_description`, joined by `_build_event_description`. -/
def contentDescription (item : PyVal) : Option String :=
  let content := getValue item ["content", "description"]
  if truthy content then some (pyStr content) else Option.none

def deadlineKeys : List String := ["deadline", "deadlineAt"]
def homeworkDateKeys : List String := ["date_", "date", "dateAt"]

/-- The `deadline or lesson-date` value of `_build_homework_event`. -/
def homeworkStartVal (item : PyVal) : PyVal :=
  pyOr (getValue item deadlineKeys) (getValue item homeworkDateKeys)

/-- `deadline.date() if isinstance(deadline, datetime) else deadline`. -/
def cutToDate (v : PyVal) : PyVal :=
  match v with
  | .pdatetime d _ _ => .pdate d
  | x => x

/-- Embeds `_build_homework_event(item)`.  `date.today()` is passed in as
`today`.  The addition `start_date + timedelta(days=1)` raises `TypeError`
when the resolved start value is truthy but not a date. -/
def buildHomeworkEvent (item : PyVal) (today : Nat) : Except PErr Event :=
  let subjectName := getNested item ["subject", "name"]
  let summary : PyVal := if truthy subjectName
    then .str (pyStr subjectName ++ " – Zadanie") else .str "Zadanie"
  let startDate := cutToDate (homeworkStartVal item)
  let startDate := if truthy startDate then startDate else .pdate today
  match startDate with
  | .pdate d =>
    .ok { summary := summary, start := .d d, end_ := .d (d + 1),
          description := contentDescription item, location := Option.none }
  | _ => .error .typeError

/-- Embeds `_build_exam_event(item)`: like homework but without the
lesson-date fallback. -/
def buildExamEvent (item : PyVal) (today : Nat) : Except PErr Event :=
  let subjectName := getNested item ["subject", "name"]
  let summary : PyVal := if truthy subjectName
    then .str (pyStr subjectName ++ " – Sprawdzian") else .str "Sprawdzian"
  let startDate := cutToDate (getValue item deadlineKeys)
  let startDate := if truthy startDate then startDate else .pdate today
  match startDate with
  | .pdate d =>
    .ok { summary := summary, start := .d d, end_ := .d (d + 1),
          description := contentDescription item, location := Option.none }
  | _ => .error .typeError

/-- Embeds `_coerce_event_datetime(value, all_day, tz)`. -/
def coerceEventDatetime (v : PyVal) (allDay : Bool) (tz : Int) : Option ETime :=
  match v with
  | .pdatetime d t off =>
    let off := match off with
      | Option.none => some tz
      | some o => some o
    if allDay then some (.d d) else some (.dt d t off)
  | .pdate d => if allDay then some (.d d) else some (.dt d 0 (some tz))
  | _ => Option.none

/-- `start + timedelta(days=1)` or `start + timedelta(hours=1)` for the
generic builder default end. -/
def defaultEnd (st : ETime) (allDay : Bool) : ETime :=
  if allDay then
    match st with
    | .d d => .d (d + 1)
    | .dt d t off => .dt (d + 1) t off
  else
    match st with
    | .d d => .d d
    | .dt d t off =>
      if t + 3600 < 86400 then .dt d (t + 3600) off else .dt (d + 1) (t + 3600 - 86400) off

/-- Embeds `_build_generic_event(item, all_day, tz)`. -/
def buildGenericEvent (item : PyVal) (allDay : Bool) (tz : Int) : Option Event :=
  let summary := pyOr (getValue item ["summary", "title", "subject", "name"]) (.str "Wydarzenie")
  let description := getValue item ["description", "content", "details"]
  let startValue := getValue item ["start", "start_date", "start_datetime", "date", "date_", "dateAt"]
  let endValue := getValue item ["end", "end_date", "end_datetime"]
  match coerceEventDatetime startValue allDay tz with
  | Option.none => Option.none
  | some st =>
    let en := match coerceEventDatetime endValue allDay tz with
      | some e => e
      | Option.none => defaultEnd st allDay
    some { summary := .str (pyStr summary), start := st, end_ := en,
           description := if truthy description then some (pyStr description) else Option.none,
           location := Option.none }

/-- The three calendar kinds of `CALENDARS` (schedule is timed, homework and
exams are all-day). -/
inductive Kind where
  | schedule
  | homework
  | exams

def kindAllDay : Kind → Bool
  | .schedule => false
  | .homework => true
  | .exams => true

/-- Embeds `EduVulcanCalendarEntity._build_event(item, tz)`: mappings of the
homework and exam kinds route to the generic builder; the schedule kind
first checks for a vacation shape. -/
def buildEvent (kind : Kind) (item : PyVal) (tz : Int) (today : Nat) :
    Except PErr (Option Event) :=
  match item with
  | .dict _ =>
    match kind with
    | .schedule =>
      if isVacationItem item then .ok (buildVacationEvent item) else buildLessonEvent item tz
    | k => .ok (buildGenericEvent item (kindAllDay k) tz)
  | _ =>
    match kind with
    | .schedule =>
      if isVacationItem item then .ok (buildVacationEvent item) else buildLessonEvent item tz
    | .homework =>
      match buildHomeworkEvent item today with
      | .ok ev => .ok (some ev)
      | .error e => .error e
    | .exams =>
      match buildExamEvent item today with
      | .ok ev => .ok (some ev)
      | .error e => .error e

/-! ### Range filter and next-event projection -/

/-- Embeds `_normalize_event_datetime(value, tz)` as an absolute instant in
seconds: an aware datetime is converted to UTC by subtracting its offset; a
naive one is interpreted in the configured timezone; an all-day date becomes
the start-of-day instant in the configured timezone. -/
def normalizeEventDatetime (v : ETime) (tz : Int) : Int :=
  match v with
  | .dt d t off => (d : Int) * 86400 + (t : Int) - off.getD tz
  | .d d => (d : Int) * 86400 - tz

/-- Embeds `_event_in_range(event, start_range, end_range, tz)`. -/
def eventInRange (ev : Event) (startRange endRange tz : Int) : Bool :=
  decide (normalizeEventDatetime ev.start tz < endRange)
    && decide (startRange < normalizeEventDatetime ev.end_ tz)

/-- The filtering stage of `async_get_events` over already-built events. -/
def eventsInRange (events : List Event) (startRange endRange tz : Int) : List Event :=
  events.filter (fun ev => eventInRange ev startRange endRange tz)

/-- Embeds the full `async_get_events` loop: build each item, skip absent
results, keep events overlapping the window; the first raised exception
aborts the whole batch. -/
def getEvents (kind : Kind) (items : List PyVal) (startRange endRange tz : Int)
    (today : Nat) : Except PErr (List Event) :=
  match items with
  | [] => .ok []
  | it :: rest =>
    match buildEvent kind it tz today with
    | .error e => .error e
    | .ok evOpt =>
      match getEvents kind rest startRange endRange tz today with
      | .error e => .error e
      | .ok tail =>
        match evOpt with
        | Option.none => .ok tail
        | some ev =>
          .ok (if eventInRange ev startRange endRange tz then ev :: tail else tail)

/-- One comparison step of Python `min(xs, key=...)`: the new element
replaces the current best only when its key is strictly smaller, so the
first element attaining the minimum is kept. -/
def minStep (tz : Int) (b x : Event) : Event :=
  if normalizeEventDatetime x.start tz < normalizeEventDatetime b.start tz then x else b

/-- Python `min(xs, key=k)` over a nonempty list: keeps the first element
attaining the minimum. -/
def minByStart (tz : Int) : List Event → Option Event
  | [] => Option.none
  | e :: es => some (es.foldl (minStep tz) e)

/-- The projection of the `event` property over already-built events: among
events whose normalized end is at or after `now`, the one with minimal
normalized start (first encountered wins ties); absent when none qualify. -/
def nextEvent (events : List Event) (now tz : Int) : Option Event :=
  minByStart tz (events.filter (fun e => decide (now ≤ normalizeEventDatetime e.end_ tz)))

/-! ## Concrete records used by counterexamples and witnesses -/

/-- A lesson whose nested lowercase substitution change type is the integer
0 (one of the documented cancellation codes), with a valid time slot and an
explicit date. -/
def lessonChangeTypeZero : PyVal :=
  .dict [("substitution", .dict [("change", .dict [("type", .int 0)])]),
         ("time_slot", .dict [("start", .str "08:00"), ("end", .str "08:45")]),
         ("date_", .pdate (toOrdinal 2024 9 2))]

/-- A lesson whose explicit date (2024-09-03, a Tuesday) disagrees with its
weekday signal (5 = Friday) next to a week anchor. -/
def lessonWeekdayDisagrees : PyVal :=
  .dict [("date_", .pdate (toOrdinal 2024 9 3)),
         ("day", .int 5),
         ("week_start", .pdate (toOrdinal 2024 9 2))]

/-- A lesson with no explicit date, weekday 1 (Monday) and a week anchor. -/
def lessonMondayAnchor : PyVal :=
  .dict [("day", .int 1), ("week_start", .pdate (toOrdinal 2024 9 2))]

/-! ## Claims -/

/-- C1: the claim states that a lesson with substitution change type 0
produces no event.  The code intends this (`change_type in {0, 1, 4}`), but
the `or` between the lowercase and PascalCase nested lookups discards a
falsy lowercase result, so a change type of 0 reached through
`substitution.change.type` is replaced by `None`, the lesson is not
classified as cancelled, and an event is built. -/
theorem c1_change_type_zero_builds_event :
    isCancelledLesson lessonChangeTypeZero = .ok false ∧
    ∃ ev, buildEvent .schedule lessonChangeTypeZero 3600 0 = .ok (some ev) :=
  ⟨rfl, ⟨_, rfl⟩⟩

/-- C2 counterexample: for a record with explicit date 2024-09-03 (ISO
weekday 2) and weekday signal 5, the claim predicts a shift to 2024-09-06;
the code returns the explicit date unchanged. -/
theorem c2_counterexample :
    isoweekday (toOrdinal 2024 9 3) = 2 ∧
    normalizeWeekdayValue (getValue lessonWeekdayDisagrees weekdayKeys) = .ok (some 5) ∧
    resolveLessonDate lessonWeekdayDisagrees = .ok (some (toOrdinal 2024 9 3)) ∧
    toOrdinal 2024 9 3 ≠ toOrdinal 2024 9 3 + (5 - 2) :=
  ⟨rfl, rfl, rfl, by decide⟩

/-- C2 (amended): whenever the explicit date field resolves to a civil date
`d` — as a native date, a datetime, or a parseable ISO string — the resolver
returns `d` itself; the weekday signal is never consulted and no shift is
performed. -/
theorem c2_explicit_date_wins (item : PyVal) (d : Nat)
    (h : getValue item dateFieldKeys = PyVal.pdate d ∨
      (∃ t o, getValue item dateFieldKeys = PyVal.pdatetime d t o) ∨
      (∃ s, getValue item dateFieldKeys = PyVal.str s ∧ coerceDateValue s = some d)) :
    resolveLessonDate item = .ok (some d) := by
  rcases h with h | ⟨t, o, h⟩ | ⟨s, h, hs⟩
  · simp only [resolveLessonDate, h]
  · simp only [resolveLessonDate, h]
  · simp only [resolveLessonDate, h, hs]

/-- C2 witness: the amended claim applied to the disagreeing record. -/
theorem c2_witness :
    resolveLessonDate lessonWeekdayDisagrees = .ok (some (toOrdinal 2024 9 3)) :=
  c2_explicit_date_wins lessonWeekdayDisagrees (toOrdinal 2024 9 3) (Or.inl rfl)

/-- C3: a record with no explicit date, a week-anchor date `w` and a weekday
signal normalizing to `d` in 1..7 resolves to `w + (d - 1)` days. -/
theorem c3_week_anchor_resolution (item : PyVal) (w d : Nat)
    (h₁ : getValue item dateFieldKeys = PyVal.none)
    (h₂ : getValue item weekStartKeys = PyVal.pdate w)
    (h₃ : normalizeWeekdayValue (getValue item weekdayKeys) = .ok (some (d : Int)))
    (h₄ : 1 ≤ d) (h₅ : d ≤ 7) :
    resolveLessonDate item = .ok (some (w + (d - 1))) := by
  have hd0 : ¬((d : Int) = 0) := by omega
  have htn : ((d : Int) - 1).toNat = d - 1 := by omega
  simp only [resolveLessonDate, h₁, resolveViaWeek, h₂, h₃, hd0, if_false, htn]

/-- C3 witness: weekday 1 (Monday) on anchor 2024-09-02 resolves to the
anchor itself, confirming the off-by-one correction. -/
theorem c3_witness :
    resolveLessonDate lessonMondayAnchor = .ok (some (toOrdinal 2024 9 2)) := by
  have h := c3_week_anchor_resolution lessonMondayAnchor (toOrdinal 2024 9 2) 1
    rfl rfl rfl (by decide) (by decide)
  simpa using h

/-- C9 counterexample: the claim predicts that every input value in 0..6 is
normalized to value + 1, but the code keeps 1..7 unchanged: input 1 yields
1, not 2. -/
theorem c9_counterexample :
    normalizeWeekdayValue (PyVal.int 1) = .ok (some 1) ∧
    normalizeWeekdayValue (PyVal.int 1) ≠ .ok (some 2) := by
  refine ⟨rfl, fun h => ?_⟩
  rw [show normalizeWeekdayValue (PyVal.int 1) = .ok (some 1) from rfl] at h
  simp only [Except.ok.injEq, Option.some.injEq] at h
  omega

/-- C9 (amended): both numberings are accepted in that 0 is shifted into
range, but the 1..7 reading takes precedence: an input `v` with
`0 ≤ v ≤ 6` normalizes to 1 when `v = 0` and to `v` itself otherwise. -/
theorem c9_weekday_normalization (v : Int) (h₀ : 0 ≤ v) (h₆ : v ≤ 6) :
    normalizeWeekdayValue (PyVal.int v) = .ok (some (if v = 0 then 1 else v)) := by
  simp only [normalizeWeekdayValue, weekdayFromInt]
  rcases eq_or_ne v 0 with rfl | hv
  · norm_num
  · rw [if_pos ⟨by omega, by omega⟩, if_neg hv]

/-- C9 witness: the amended claim applied at 0 and at 5. -/
theorem c9_witness :
    normalizeWeekdayValue (PyVal.int 0) = .ok (some 1) ∧
    normalizeWeekdayValue (PyVal.int 5) = .ok (some 5) := by
  constructor
  · have h := c9_weekday_normalization 0 (by omega) (by omega)
    simpa using h
  · have h := c9_weekday_normalization 5 (by omega) (by omega)
    simpa using h

/-- Every weekday the numeric branch accepts lies in 1..7. -/
theorem weekdayFromInt_range {n r : Int} (h : weekdayFromInt n = some r) :
    1 ≤ r ∧ r ≤ 7 := by
  unfold weekdayFromInt at h
  split_ifs at h with h₁ h₂
  · cases h; omega
  · cases h; omega

/-- C10 counterexample: the claim predicts that a string that is not a plain
digit sequence is treated as absent, but the code strips surrounding
whitespace first: the padded string " 5" is not a digit sequence yet
normalizes to 5. -/
theorem c10_counterexample :
    isDigitString " 5" = false ∧
    normalizeWeekdayValue (PyVal.str " 5") = .ok (some 5) :=
  ⟨rfl, rfl⟩

/-- C10 (amended): weekday normalization returns either absent or an
integer in 1..7; integers outside 0..7 are absent; strings whose
whitespace-stripped form is not a nonempty digit sequence are absent (a
digit string padded with whitespace is accepted); and a record lacking an
explicit date whose weekday signal normalizes to absent resolves no date
through the week-anchor path. -/
theorem c10_weekday_range :
    (∀ v r, normalizeWeekdayValue v = .ok (some r) → 1 ≤ r ∧ r ≤ 7) ∧
    (∀ n : Int, n < 0 ∨ 7 < n → normalizeWeekdayValue (PyVal.int n) = .ok Option.none) ∧
    (∀ s, isDigitString (stripString s) = false →
      normalizeWeekdayValue (PyVal.str s) = .ok Option.none) ∧
    (∀ item, getValue item dateFieldKeys = PyVal.none →
      normalizeWeekdayValue (getValue item weekdayKeys) = .ok Option.none →
      resolveLessonDate item = .ok Option.none) := by
  refine ⟨?_, ?_, ?_, ?_⟩
  · intro v r h
    cases v with
    | int n =>
      simp only [normalizeWeekdayValue, Except.ok.injEq] at h
      exact weekdayFromInt_range h
    | bool b =>
      simp only [normalizeWeekdayValue, Except.ok.injEq] at h
      exact weekdayFromInt_range h
    | str s =>
      simp only [normalizeWeekdayValue] at h
      split_ifs at h
      · simp only [Except.ok.injEq] at h
        exact weekdayFromInt_range h
      · simp at h
    | none => simp [normalizeWeekdayValue] at h
    | pdate d => simp [normalizeWeekdayValue] at h
    | ptime t => simp [normalizeWeekdayValue] at h
    | pdatetime d t o => simp [normalizeWeekdayValue] at h
    | dict es => simp [normalizeWeekdayValue] at h
    | obj as => simp [normalizeWeekdayValue] at h
  · intro n hn
    simp only [normalizeWeekdayValue, weekdayFromInt]
    rw [if_neg (by omega), if_neg (by omega)]
  · intro s hs
    simp only [normalizeWeekdayValue, hs, Bool.false_eq_true, if_false]
  · intro item h₁ h₂
    simp only [resolveLessonDate, h₁, resolveViaWeek, h₂]
    cases hw : getValue item weekStartKeys <;> simp

/-- C10 witness: the amended claim applied at the integers 8 and -1, the
string "abc", and a record carrying only an out-of-range weekday. -/
theorem c10_witness :
    normalizeWeekdayValue (PyVal.int 8) = .ok Option.none ∧
    normalizeWeekdayValue (PyVal.int (-1)) = .ok Option.none ∧
    normalizeWeekdayValue (PyVal.str "abc") = .ok Option.none ∧
    resolveLessonDate (.dict [("day", .int 8), ("week_start", .pdate 700000)]) =
      .ok Option.none := by
  refine ⟨?_, ?_, ?_, ?_⟩
  · exact c10_weekday_range.2.1 8 (by omega)
  · exact c10_weekday_range.2.1 (-1) (by omega)
  · exact c10_weekday_range.2.2.1 "abc" rfl
  · exact c10_weekday_range.2.2.2 (.dict [("day", .int 8), ("week_start", .pdate 700000)])
      rfl (c10_weekday_range.2.1 8 (by omega))

/-- The homework record of the claim scenario taken literally as a mapping
(its date field is an ISO string, its deadline is `None`). -/
def homeworkScenarioDict : PyVal :=
  .dict [("subject", .dict [("name", .str "Art")]), ("deadline", PyVal.none),
         ("date_", .str "2024-10-10"), ("content", .str "Draw a tree")]

/-- The same scenario as an attribute object with a native civil date. -/
def homeworkScenarioObj : PyVal :=
  .obj [("subject", .obj [("name", .str "Art")]), ("deadline", PyVal.none),
        ("date_", .pdate (toOrdinal 2024 10 10)), ("content", .str "Draw a tree")]

/-- C7 counterexample: the claim asserts that the scenario record yields the
"Art – Zadanie" event, but a mapping-shaped homework item is routed to the
generic builder, which cannot coerce a string start value, so no event at
all is produced. -/
theorem c7_counterexample :
    buildEvent .homework homeworkScenarioDict 3600 (toOrdinal 2024 1 1) = .ok Option.none :=
  rfl

/-- C7 (amended): for attribute-shaped homework records whose date fields
hold native temporal values, the claimed rules hold: with a falsy deadline
and a civil lesson date `d`, a nonempty subject name `nm` and nonempty
content `c`, the builder yields the all-day event
`(nm ++ " – Zadanie", d, d + 1, c)`; a date (or datetime) deadline `d`
yields start `d` and end `d + 1`; with both fields falsy the current date is
used.  Mapping-shaped homework records are routed to the generic builder
instead. -/
theorem c7_homework_event (item : PyVal) (today : Nat) :
    (∀ d nm c, getValue item deadlineKeys = PyVal.none →
      getValue item homeworkDateKeys = PyVal.pdate d →
      getNested item ["subject", "name"] = PyVal.str nm → nm ≠ "" →
      getValue item ["content", "description"] = PyVal.str c → c ≠ "" →
      buildHomeworkEvent item today =
        .ok { summary := .str (nm ++ " – Zadanie"), start := .d d, end_ := .d (d + 1),
              description := some c, location := Option.none }) ∧
    (∀ d, (getValue item deadlineKeys = PyVal.pdate d ∨
        ∃ t o, getValue item deadlineKeys = PyVal.pdatetime d t o) →
      ∃ s dsc, buildHomeworkEvent item today =
        .ok { summary := s, start := .d d, end_ := .d (d + 1),
              description := dsc, location := Option.none }) ∧
    (getValue item deadlineKeys = PyVal.none →
      getValue item homeworkDateKeys = PyVal.none →
      ∃ s dsc, buildHomeworkEvent item today =
        .ok { summary := s, start := .d today, end_ := .d (today + 1),
              description := dsc, location := Option.none }) ∧
    (∀ es tz, buildEvent .homework (.dict es) tz today =
      .ok (buildGenericEvent (.dict es) true tz)) := by
  refine ⟨?_, ?_, ?_, ?_⟩
  · intro d nm c h₁ h₂ h₃ hnm h₄ hc
    simp only [buildHomeworkEvent, homeworkStartVal, contentDescription, h₁, h₂, h₃, h₄,
      pyOr, cutToDate, truthy, pyStr]
    simp [hnm, hc]
  · intro d h
    rcases h with h | ⟨t, o, h⟩ <;>
      simp only [buildHomeworkEvent, homeworkStartVal, h, pyOr, cutToDate, truthy] <;>
      exact ⟨_, _, rfl⟩
  · intro h₁ h₂
    simp only [buildHomeworkEvent, homeworkStartVal, h₁, h₂, pyOr, cutToDate, truthy]
    exact ⟨_, _, rfl⟩
  · intro es tz
    rfl

/-- C7 witness: the scenario record in attribute-object shape with a native
date yields exactly the claimed event. -/
theorem c7_witness :
    buildHomeworkEvent homeworkScenarioObj (toOrdinal 2024 1 1) =
      .ok { summary := .str "Art – Zadanie", start := .d (toOrdinal 2024 10 10),
            end_ := .d (toOrdinal 2024 10 10 + 1), description := some "Draw a tree",
            location := Option.none } :=
  (c7_homework_event homeworkScenarioObj (toOrdinal 2024 1 1)).1
    (toOrdinal 2024 10 10) "Art" "Draw a tree" rfl rfl rfl (by decide) rfl (by decide)

/-- The vacation record of the claim scenario. -/
def vacationScenario : PyVal :=
  .dict [("name", .str "Autumn break"), ("date_from", .str "2024-10-14"),
         ("date_to", .str "2024-10-18")]

/-- C8: a vacation record whose bounds coerce to civil dates `d₁` and `d₂`
yields exactly one all-day event with start `d₁` and exclusive end `d₂ + 1`;
if either bound fails to coerce, no event is produced; and every record that
yields a name, a from-date and a to-date is routed to the vacation builder
by the schedule dispatcher. -/
theorem c8_vacation_event (item : PyVal) :
    (∀ d₁ d₂, vacCoerce (getValue item dateFromKeys) = PyVal.pdate d₁ →
      vacCoerce (getValue item dateToKeys) = PyVal.pdate d₂ →
      ∃ s, buildVacationEvent item =
        some { summary := s, start := .d d₁, end_ := .d (d₂ + 1),
               description := Option.none, location := Option.none }) ∧
    ((∀ d, vacCoerce (getValue item dateFromKeys) ≠ PyVal.pdate d) ∨
      (∀ d, vacCoerce (getValue item dateToKeys) ≠ PyVal.pdate d) →
      buildVacationEvent item = Option.none) ∧
    (∀ tz today, isVacationItem item = true →
      buildEvent .schedule item tz today = .ok (buildVacationEvent item)) := by
  refine ⟨?_, ?_, ?_⟩
  · intro d₁ d₂ h₁ h₂
    simp only [buildVacationEvent, h₁, h₂]
    exact ⟨_, rfl⟩
  · intro h
    simp only [buildVacationEvent]
    rcases h with h | h
    · cases hv : vacCoerce (getValue item dateFromKeys) <;> simp_all
    · cases hv : vacCoerce (getValue item dateToKeys) <;>
        cases hw : vacCoerce (getValue item dateFromKeys) <;> simp_all
  · intro tz today h
    cases item <;> simp [buildEvent, h]

/-- C8 witness: the scenario vacation spans 2024-10-14 .. 2024-10-18
inclusive, rendered with exclusive end 2024-10-19. -/
theorem c8_witness :
    ∃ s, buildVacationEvent vacationScenario =
      some { summary := s, start := .d (toOrdinal 2024 10 14),
             end_ := .d (toOrdinal 2024 10 18 + 1),
             description := Option.none, location := Option.none } :=
  (c8_vacation_event vacationScenario).1 (toOrdinal 2024 10 14) (toOrdinal 2024 10 18) rfl rfl

/-- A homework object whose deadline is an ISO string instead of a native
temporal value. -/
def homeworkStringDeadline : PyVal := .obj [("deadline", .str "2024-10-10")]

/-- A well-typed homework object sibling. -/
def homeworkDateDeadline : PyVal := .obj [("deadline", .pdate (toOrdinal 2024 10 10))]

/-- C4 counterexample: the claim asserts that builders never raise on
malformed per-item data and that one bad record never aborts the batch.
A homework object whose deadline is a string reaches
`start_date + timedelta(days=1)` and raises `TypeError`; in a batch it
aborts the sibling records, while the sibling alone yields its event. -/
theorem c4_counterexample :
    buildHomeworkEvent homeworkStringDeadline (toOrdinal 2024 10 1) = .error .typeError ∧
    getEvents .homework [homeworkDateDeadline, homeworkStringDeadline]
      0 1000000000000 3600 (toOrdinal 2024 10 1) = .error .typeError ∧
    ∃ ev, getEvents .homework [homeworkDateDeadline]
      0 1000000000000 3600 (toOrdinal 2024 10 1) = .ok [ev] :=
  ⟨rfl, rfl, ⟨_, rfl⟩⟩

/-- C4 (amended): builders return an event or absent only for the malformed
shapes they guard against; a field of unexpected type at an unguarded
position raises.  Precisely, the homework builder raises exactly when its
resolved start value is truthy but not a civil date, and a raise on one
record aborts its whole batch: whenever every record before `it` builds
without raising and `it` raises, the batch call raises that same error and
returns no events. -/
theorem c4_builder_errors :
    (∀ item today, (∃ err, buildHomeworkEvent item today = .error err) ↔
      (truthy (cutToDate (homeworkStartVal item)) = true ∧
        ∀ d, cutToDate (homeworkStartVal item) ≠ PyVal.pdate d)) ∧
    (∀ kind pre post it startRange endRange tz today err,
      (∀ x ∈ pre, ∃ r, buildEvent kind x tz today = .ok r) →
      buildEvent kind it tz today = .error err →
      getEvents kind (pre ++ it :: post) startRange endRange tz today = .error err) := by
  constructor
  · intro item today
    simp only [buildHomeworkEvent]
    cases hs : cutToDate (homeworkStartVal item) with
    | pdate d =>
      simp only [truthy]
      constructor
      · rintro ⟨err, herr⟩
        exact absurd herr (by simp)
      · rintro ⟨-, hne⟩
        exact absurd rfl (hne d)
    | none => simp [truthy]
    | bool b =>
      cases b <;> simp [truthy]
    | int n =>
      rcases eq_or_ne n 0 with rfl | hn
      · simp [truthy]
      · simp [truthy, hn]
    | str s =>
      rcases eq_or_ne s "" with rfl | hstr
      · simp [truthy]
      · simp [truthy, hstr]
    | ptime t => simp [truthy]
    | pdatetime d t o => simp [truthy]
    | dict es =>
      cases es <;> simp [truthy, List.isEmpty]
    | obj as => simp [truthy]
  · intro kind pre post it startRange endRange tz today err hpre hit
    induction pre with
    | nil =>
      simp only [List.nil_append, getEvents, hit]
    | cons x pre ih =>
      obtain ⟨r, hr⟩ := hpre x (List.mem_cons_self x pre)
      have htail := ih (fun y hy => hpre y (List.mem_cons_of_mem x hy))
      simp only [List.cons_append, getEvents, hr, List.append_eq, htail]

/-- C4 witness: the amended characterization applied to the string-deadline
record inside a batch behind a well-typed sibling. -/
theorem c4_witness :
    getEvents .homework [homeworkDateDeadline, homeworkStringDeadline, homeworkDateDeadline]
      0 1000000000000 3600 (toOrdinal 2024 10 1) = .error .typeError :=
  c4_builder_errors.2 .homework [homeworkDateDeadline] [homeworkDateDeadline]
    homeworkStringDeadline 0 1000000000000 3600 (toOrdinal 2024 10 1) .typeError
    (by intro x hx; rw [List.mem_singleton] at hx; subst hx; exact ⟨_, rfl⟩)
    rfl

/-- C5: the range filter keeps exactly the events with
`normalize(start) < rangeEnd` and `normalize(end) > rangeStart` (membership
depends only on the event, not on its position), and an event exactly
abutting either window boundary is excluded. -/
theorem c5_events_in_range (events : List Event) (startRange endRange tz : Int) :
    (∀ ev, ev ∈ eventsInRange events startRange endRange tz ↔
      ev ∈ events ∧ normalizeEventDatetime ev.start tz < endRange ∧
        startRange < normalizeEventDatetime ev.end_ tz) ∧
    (∀ ev, normalizeEventDatetime ev.end_ tz = startRange →
      ev ∉ eventsInRange events startRange endRange tz) ∧
    (∀ ev, normalizeEventDatetime ev.start tz = endRange →
      ev ∉ eventsInRange events startRange endRange tz) := by
  have hmem : ∀ ev, ev ∈ eventsInRange events startRange endRange tz ↔
      ev ∈ events ∧ normalizeEventDatetime ev.start tz < endRange ∧
        startRange < normalizeEventDatetime ev.end_ tz := by
    intro ev
    simp [eventsInRange, eventInRange, List.mem_filter]
  refine ⟨hmem, ?_, ?_⟩
  · intro ev h hcontra
    rw [hmem] at hcontra
    omega
  · intro ev h hcontra
    rw [hmem] at hcontra
    omega

/-- A sample timed event used by the projection witnesses. -/
def sampleTimedEvent : Event :=
  { summary := .str "Lekcja", start := .dt 739131 28800 (some 3600),
    end_ := .dt 739131 31500 (some 3600), description := Option.none,
    location := Option.none }

/-- A sample all-day event used by the projection witnesses. -/
def sampleAllDayEvent : Event :=
  { summary := .str "Zadanie", start := .d 739169, end_ := .d 739170,
    description := Option.none, location := Option.none }

/-- C5 witness: the overlap characterization applied to a two-event list
and a window that contains only the all-day event. -/
theorem c5_witness :
    sampleAllDayEvent ∈
      eventsInRange [sampleTimedEvent, sampleAllDayEvent] 63860000000 63870000000 3600 :=
  ((c5_events_in_range [sampleTimedEvent, sampleAllDayEvent] 63860000000 63870000000 3600).1
      sampleAllDayEvent).mpr
    ⟨by simp [sampleAllDayEvent], by decide, by decide⟩

/-- Python `min(key=...)` over a nonempty list splits the list around the
first element attaining the minimal key: everything before it is strictly
larger, everything after it is at least as large. -/
theorem foldlMin_decomp (tz : Int) :
    ∀ (es : List Event) (e : Event),
      ∃ l₁ l₂,
        e :: es = l₁ ++ (es.foldl (minStep tz) e) :: l₂ ∧
        (∀ x ∈ l₁, normalizeEventDatetime (es.foldl (minStep tz) e).start tz
            < normalizeEventDatetime x.start tz) ∧
        (∀ x ∈ l₂, normalizeEventDatetime (es.foldl (minStep tz) e).start tz
            ≤ normalizeEventDatetime x.start tz) := by
  intro es
  induction es with
  | nil =>
    intro e
    exact ⟨[], [], rfl, by simp, by simp⟩
  | cons a es ih =>
    intro e
    rw [List.foldl_cons]
    by_cases ha : normalizeEventDatetime a.start tz < normalizeEventDatetime e.start tz
    · rw [show minStep tz e a = a from if_pos ha]
      obtain ⟨l₁, l₂, heq, h₁, h₂⟩ := ih a
      cases l₁ with
      | nil =>
        rw [List.nil_append, List.cons.injEq] at heq
        obtain ⟨hra, hl⟩ := heq
        refine ⟨[e], l₂, ?_, ?_, h₂⟩
        · rw [List.cons_append, List.nil_append, ← hra, ← hl]
        · intro x hx
          rw [List.mem_singleton] at hx
          subst hx
          rw [← hra]
          exact ha
      | cons b l₁ =>
        rw [List.cons_append, List.cons.injEq] at heq
        obtain ⟨hb, hrest⟩ := heq
        refine ⟨e :: a :: l₁, l₂, ?_, ?_, h₂⟩
        · rw [List.cons_append, List.cons_append, ← hrest]
        · intro x hx
          rcases List.mem_cons.mp hx with rfl | hx
          · calc normalizeEventDatetime (es.foldl (minStep tz) a).start tz
                < normalizeEventDatetime a.start tz := by
                  have hba := h₁ b (List.mem_cons_self b l₁)
                  rwa [← hb] at hba
              _ < normalizeEventDatetime x.start tz := ha
          · rcases List.mem_cons.mp hx with rfl | hx
            · have hba := h₁ b (List.mem_cons_self b l₁)
              rwa [← hb] at hba
            · exact h₁ x (List.mem_cons_of_mem b hx)
    · rw [show minStep tz e a = e from if_neg ha]
      obtain ⟨l₁, l₂, heq, h₁, h₂⟩ := ih e
      cases l₁ with
      | nil =>
        rw [List.nil_append, List.cons.injEq] at heq
        obtain ⟨hre, hl⟩ := heq
        refine ⟨[], a :: l₂, ?_, by simp, ?_⟩
        · rw [List.nil_append, List.cons.injEq]
          exact ⟨hre, by rw [List.cons.injEq]; exact ⟨rfl, hl⟩⟩
        · intro x hx
          rcases List.mem_cons.mp hx with rfl | hx
          · rw [← hre]
            exact le_of_not_lt ha
          · exact h₂ x hx
      | cons b l₁ =>
        rw [List.cons_append, List.cons.injEq] at heq
        obtain ⟨hb, hrest⟩ := heq
        refine ⟨e :: a :: l₁, l₂, ?_, ?_, h₂⟩
        · rw [List.cons_append, List.cons_append, ← hrest]
        · intro x hx
          rcases List.mem_cons.mp hx with rfl | hx
          · have hbe := h₁ b (List.mem_cons_self b l₁)
            rwa [← hb] at hbe
          · rcases List.mem_cons.mp hx with rfl | hx
            · calc normalizeEventDatetime (es.foldl (minStep tz) e).start tz
                  < normalizeEventDatetime e.start tz := by
                    have hbe := h₁ b (List.mem_cons_self b l₁)
                    rwa [← hb] at hbe
                _ ≤ normalizeEventDatetime x.start tz := le_of_not_lt ha
            · exact h₁ x (List.mem_cons_of_mem b hx)

/-- C6: the next-event projection returns absent exactly when no event has
normalized end at or after `now`; a returned event is a qualifying member of
the input with minimal normalized start among all qualifying events, and it
is the first event of the qualifying sublist attaining that minimum (ties
broken by first encountered); a singleton qualifying sublist is returned no
matter where its event sits in the input. -/
theorem c6_next_event (events : List Event) (now tz : Int) :
    (nextEvent events now tz = Option.none ↔
      events.filter (fun e => decide (now ≤ normalizeEventDatetime e.end_ tz)) = []) ∧
    (∀ ev, nextEvent events now tz = some ev →
      ev ∈ events ∧ now ≤ normalizeEventDatetime ev.end_ tz ∧
      (∀ x ∈ events, now ≤ normalizeEventDatetime x.end_ tz →
        normalizeEventDatetime ev.start tz ≤ normalizeEventDatetime x.start tz) ∧
      ∃ l₁ l₂,
        events.filter (fun e => decide (now ≤ normalizeEventDatetime e.end_ tz)) =
          l₁ ++ ev :: l₂ ∧
        ∀ x ∈ l₁, normalizeEventDatetime ev.start tz < normalizeEventDatetime x.start tz) ∧
    (∀ ev, events.filter (fun e => decide (now ≤ normalizeEventDatetime e.end_ tz)) = [ev] →
      nextEvent events now tz = some ev) := by
  refine ⟨?_, ?_, ?_⟩
  · unfold nextEvent
    cases h : events.filter (fun e => decide (now ≤ normalizeEventDatetime e.end_ tz)) with
    | nil => simp [minByStart]
    | cons a es => simp [minByStart]
  · intro ev hev
    unfold nextEvent at hev
    cases hfl : events.filter (fun e => decide (now ≤ normalizeEventDatetime e.end_ tz)) with
    | nil =>
      rw [hfl] at hev
      cases hev
    | cons a es =>
      rw [hfl] at hev
      simp only [minByStart, Option.some.injEq] at hev
      obtain ⟨l₁, l₂, heq, h₁, h₂⟩ := foldlMin_decomp tz es a
      rw [hev] at heq h₁ h₂
      have hmemfl : ev ∈ a :: es := by
        rw [heq]
        exact List.mem_append_right l₁ (List.mem_cons_self ev l₂)
      have hmem : ev ∈ events ∧ now ≤ normalizeEventDatetime ev.end_ tz := by
        have := List.mem_filter.mp (hfl ▸ hmemfl)
        simpa using this
      refine ⟨hmem.1, hmem.2, ?_, l₁, l₂, heq, h₁⟩
      intro x hx hqx
      have hxfl : x ∈ a :: es := by
        rw [← hfl]
        exact List.mem_filter.mpr ⟨hx, by simpa using hqx⟩
      rw [heq] at hxfl
      rcases List.mem_append.mp hxfl with hx₁ | hx₂
      · exact le_of_lt (h₁ x hx₁)
      · rcases List.mem_cons.mp hx₂ with rfl | hx₂
        · exact le_refl _
        · exact h₂ x hx₂
  · intro ev h
    unfold nextEvent
    rw [h]
    rfl

/-- C6 witness: with only the all-day event qualifying, the projection
returns it from the second position of the input list. -/
theorem c6_witness :
    nextEvent [sampleTimedEvent, sampleAllDayEvent] 63861000000 3600 = some sampleAllDayEvent :=
  (c6_next_event [sampleTimedEvent, sampleAllDayEvent] 63861000000 3600).2.2
    sampleAllDayEvent rfl

end EduVulcan
